import Mathlib

/-!
Verification of the OAuth/token subsystem specification of the track
repository against the code. The frontend (src/frontend) is embedded directly from the
TypeScript source; the backend OAuth components described by the design
document are not present in the source tree (only the frontend is), so they
are modelled from the specification text, as marked on each definition.
-/

namespace Track

/-! ### Frontend embedding: src/frontend/src/api/client.ts -/

/-- JavaScript truthiness of a `string | null` value: `null` and the empty
string are falsy, every other string is truthy. -/
def jsTruthy : Option String → Bool
  | none => false
  | some s => !s.isEmpty

/-- Observable state of the ApiClient singleton: the in-memory `token`
field and the value stored under the localStorage key `token`. -/
structure ClientState where
  token : Option String
  storage : Option String
deriving Repr, DecidableEq

/-- ApiClient.setToken: assigns `this.token`; a truthy argument is written
to localStorage, a falsy one (null, and also the empty string) removes the
key. -/
def ApiClient.setToken (_s : ClientState) (t : Option String) : ClientState :=
  { token := t
    storage := if jsTruthy t then t else none }

/-- ApiClient.getToken returns the in-memory token field. -/
def ApiClient.getToken (s : ClientState) : Option String :=
  s.token

/-- Headers built at the top of ApiClient.request: Content-Type always,
plus an Authorization bearer header when `this.token` is truthy. -/
def ApiClient.requestHeaders (s : ClientState) : List (String × String) :=
  let base := [("Content-Type", "application/json")]
  if jsTruthy s.token then
    base ++ [("Authorization", "Bearer " ++ s.token.getD "")]
  else base

/-- Whether a header list carries an Authorization entry. -/
def hasAuthHeader (hs : List (String × String)) : Bool :=
  hs.any (fun kv => kv.1 = "Authorization")

/-- fetch marks a response ok exactly when the status is in 200..299. -/
def fetchOk (status : Nat) : Bool :=
  200 ≤ status && status < 300

/-- Outcome of an ApiClient.request call: resolves, or rejects (throws). -/
inductive RequestOutcome where
  | resolved
  | thrown
deriving Repr, DecidableEq

/-- The error-path state transition of ApiClient.request: a non-ok response
throws, and a 401 additionally clears the stored token (and redirects to
/login) before throwing. -/
def ApiClient.request (s : ClientState) (status : Nat) :
    ClientState × RequestOutcome :=
  if fetchOk status then (s, .resolved)
  else if status = 401 then (ApiClient.setToken s none, .thrown)
  else (s, .thrown)

/-! ### Frontend embedding: src/components/auth/AgentAuth.tsx -/

/-- The method names defined on the ApiClient class in
src/frontend/src/api/client.ts. -/
def apiClientMethods : List String :=
  ["setToken", "getToken", "request", "get", "post", "put", "delete",
   "login", "logout"]

/-- Shape of the agent-token result AgentAuth expects
(AgentTokenResponse in src/frontend/src/types/index.ts). -/
structure AgentTokenResult where
  access_token : String
  expires_in_days : Nat
deriving Repr, DecidableEq

/-- Outcome of AgentAuth.handleSubmit: either the token panel is shown, or
the catch branch sets the error message. -/
inductive SubmitOutcome where
  | tokenShown (accessToken : String) (expiresInDays : Nat)
  | errorShown
deriving Repr, DecidableEq

/-- A JavaScript method call through a class instance: invoking a method
name the class does not define throws a TypeError. -/
def jsMethodCall {α : Type} (methods : List String) (name : String)
    (call : Unit → α) : Except Unit α :=
  if methods.contains name then .ok (call ()) else .error ()

/-- AgentAuth.handleSubmit: awaits api.agentToken(username, password,
expiresInDays) and shows the result; any thrown error lands in the catch
branch, which shows the error message instead. The backend response is a
parameter, since the call must first resolve on the ApiClient class. -/
def AgentAuth.handleSubmit (username password : String) (expiresInDays : Nat)
    (backend : String → String → Nat → AgentTokenResult) : SubmitOutcome :=
  match jsMethodCall apiClientMethods "agentToken"
      (fun _ => backend username password expiresInDays) with
  | .ok r => .tokenShown r.access_token r.expires_in_days
  | .error _ => .errorShown

/-- The Token Duration options (in days) offered by the AgentAuth form. -/
def agentTokenDurationOptions : List Nat := [1, 7, 30, 90, 365]

/-- The initial value of the expiresInDays state in AgentAuth. -/
def agentTokenDefaultDays : Nat := 30

def secondsPerDay : Nat := 86400

/-- A duration counts as short-lived (order of minutes to hours) when it is
below one day; day-or-longer durations are long-lived. This renders the
minutes-to-hours versus days distinction drawn by the spec. -/
def shortLivedSeconds (seconds : Nat) : Bool :=
  seconds < secondsPerDay

/-- The duration in seconds of an agent token requested for `d` days. -/
def agentTokenRequestSeconds (d : Nat) : Nat :=
  d * secondsPerDay

/-- The frontend requests that obtain a bearer token: ApiClient.login posts
the username/password form to /api/auth/login, and AgentAuth.handleSubmit
calls api.agentToken(username, password, expiresInDays). -/
inductive TokenCall where
  | loginCall (username password : String)
  | agentTokenCall (username password : String) (expiresInDays : Nat)

/-- The named parameters each token-obtaining call sends, read off the
call sites in the source. -/
def TokenCall.params : TokenCall → List (String × String)
  | .loginCall u p => [("username", u), ("password", p)]
  | .agentTokenCall u p d =>
      [("username", u), ("password", p), ("expiresInDays", toString d)]

/-- Whether a token-obtaining call sends a parameter named `k`. -/
def TokenCall.sendsField (c : TokenCall) (k : String) : Bool :=
  c.params.any (fun kv => kv.1 = k)

/-! ### OAuth subsystem, modelled from the specification

The backend api/ package referenced by the Dockerfile is not part of the
source tree, so the Client Registry, Authorization Code Store and Token
Service are modelled from the design document. -/

/-- Modelled from the spec: conservative default TTLs — minutes for
authorization codes, minutes-to-hours for access tokens, days (here 30,
i.e. 2592000 seconds) for refresh tokens. -/
def authCodeTtlSeconds : Nat := 600

/-- Modelled from the spec: access token TTL, one hour. -/
def accessTokenTtlSeconds : Nat := 3600

/-- Modelled from the spec: refresh token TTL, thirty days. -/
def refreshTokenTtlSeconds : Nat := 2592000

/-- Modelled from the spec: the error taxonomy of the grant and token
surface. -/
inductive OAuthError where
  | invalidClient
  | invalidRedirect
  | invalidGrant
  | invalidToken
  | tokenExpired
  | validationError
deriving Repr, DecidableEq

/-- Modelled from the spec: the salted secret hash of the Client Registry,
abstracted to an injective tagging function (constant-time comparison is
not observable in this embedding). -/
def secretHash (secret : String) : String :=
  String.append "hash:" secret

/-- Modelled from the spec: the OAuthClient record. -/
structure OAuthClient where
  id : String
  secret_hash : String
  name : String
  redirect_uris : List String
  created_at : Nat
deriving Repr, DecidableEq

/-- Modelled from the spec: the AuthorizationCode record; the opaque random
code value is modelled as a Nat drawn from a fresh counter. -/
structure AuthorizationCode where
  code : Nat
  client_id : String
  user_id : String
  redirect_uri : String
  state : String
  expires_at : Nat
  consumed : Bool
deriving Repr, DecidableEq

/-- Modelled from the spec: the AccessToken record; `sibling_refresh` names
the refresh token issued in the same pair, realising the pair linkage that
rotation and family revocation traverse. -/
structure AccessToken where
  token : Nat
  client_id : String
  user_id : String
  expires_at : Nat
  revoked : Bool
  sibling_refresh : Nat
deriving Repr, DecidableEq

/-- Modelled from the spec: the RefreshToken record with its
`rotated_from` lineage back-reference and `used` flag; `sibling_access`
names the access token of the same pair, which refresh must invalidate. -/
structure RefreshToken where
  token : Nat
  client_id : String
  user_id : String
  expires_at : Nat
  rotated_from : Option Nat
  used : Bool
  revoked : Bool
  sibling_access : Nat
deriving Repr, DecidableEq

/-- Modelled from the spec: the persistent stores behind the registries,
as maps from identifiers, together with a counter supplying fresh opaque
values and the current clock. -/
structure Store where
  clients : String → Option OAuthClient
  codes : Nat → Option AuthorizationCode
  accessTokens : Nat → Option AccessToken
  refreshTokens : Nat → Option RefreshToken
  counter : Nat
  now : Nat

/-- Point update of an identifier-keyed map. -/
def updMap {α : Type} (m : Nat → Option α) (k : Nat) (v : α) :
    Nat → Option α :=
  fun t => if t = k then some v else m t

/-- Modelled from the spec: validate_redirect — exact string match against
the registered set, no wildcard or prefix matching. -/
def validate_redirect (st : Store) (client_id uri : String) : Bool :=
  match st.clients client_id with
  | none => false
  | some c => c.redirect_uris.contains uri

/-- Modelled from the spec: Client Registry verify — secret comparison
against the stored hash. -/
def verifyClient (st : Store) (client_id client_secret : String) : Bool :=
  match st.clients client_id with
  | none => false
  | some c => c.secret_hash == secretHash client_secret

/-- Modelled from the spec: register — stores a fresh client with a hashed
secret; fails when no redirect URI is supplied. -/
def register (st : Store) (name : String) (redirect_uris : List String) :
    Store × Except OAuthError (String × String) :=
  if redirect_uris.isEmpty then (st, .error .validationError)
  else
    let cid := String.append "client-" (toString st.counter)
    let secret := String.append "secret-" (toString st.counter)
    let c : OAuthClient :=
      { id := cid, secret_hash := secretHash secret, name := name
        redirect_uris := redirect_uris, created_at := st.now }
    ({ st with
        clients := fun k => if k = cid then some c else st.clients k
        counter := st.counter + 1 },
     .ok (cid, secret))

/-- Modelled from the spec: authorize_request — pure validation of the
client and redirect URI before consent is shown. -/
def authorize_request (st : Store) (client_id redirect_uri : String) :
    Except OAuthError Unit :=
  match st.clients client_id with
  | none => .error .invalidClient
  | some c =>
      if c.redirect_uris.contains redirect_uri then .ok ()
      else .error .invalidRedirect

/-- Modelled from the spec: approve — creates an AuthorizationCode with a
fresh opaque value and a short TTL, echoing the client-supplied state. -/
def approve (st : Store) (client_id redirect_uri state user_id : String) :
    Store × Nat :=
  let c : AuthorizationCode :=
    { code := st.counter, client_id := client_id, user_id := user_id
      redirect_uri := redirect_uri, state := state
      expires_at := st.now + authCodeTtlSeconds, consumed := false }
  ({ st with
      codes := updMap st.codes st.counter c
      counter := st.counter + 1 },
   st.counter)

/-- Modelled from the spec: consume — validates the client secret, exact
redirect match and non-expiry, and atomically compare-and-sets the
consumed flag; every mismatch yields the same generic InvalidGrant. -/
def consume (st : Store) (code : Nat)
    (client_id redirect_uri client_secret : String) :
    Store × Except OAuthError String :=
  match st.codes code with
  | none => (st, .error .invalidGrant)
  | some ac =>
      if ac.consumed then (st, .error .invalidGrant)
      else if ac.expires_at ≤ st.now then (st, .error .invalidGrant)
      else if ac.client_id ≠ client_id then (st, .error .invalidGrant)
      else if verifyClient st client_id client_secret = false then
        (st, .error .invalidGrant)
      else if ac.redirect_uri ≠ redirect_uri then (st, .error .invalidGrant)
      else
        ({ st with codes := updMap st.codes code { ac with consumed := true } },
         .ok ac.user_id)

/-- Modelled from the spec: the shared issuing step of issue and refresh —
always a pair, access TTL short and refresh TTL long, with the lineage
back-reference recorded when rotating. -/
def issuePair (st : Store) (client_id user_id : String)
    (rotated_from : Option Nat) : Store × AccessToken × RefreshToken :=
  let a : AccessToken :=
    { token := st.counter, client_id := client_id, user_id := user_id
      expires_at := st.now + accessTokenTtlSeconds, revoked := false
      sibling_refresh := st.counter + 1 }
  let r : RefreshToken :=
    { token := st.counter + 1, client_id := client_id, user_id := user_id
      expires_at := st.now + refreshTokenTtlSeconds
      rotated_from := rotated_from, used := false, revoked := false
      sibling_access := st.counter }
  ({ st with
      accessTokens := updMap st.accessTokens st.counter a
      refreshTokens := updMap st.refreshTokens (st.counter + 1) r
      counter := st.counter + 2 },
   a, r)

/-- Modelled from the spec: issue — a fresh access/refresh pair with the
access TTL reported as expires_in. -/
def issue (st : Store) (client_id user_id : String) :
    Store × AccessToken × RefreshToken × Nat :=
  let p := issuePair st client_id user_id none
  (p.1, p.2.1, p.2.2, accessTokenTtlSeconds)

/-- Modelled from the spec: verify_access — a side-effect-free lookup;
revoked or unknown tokens are InvalidToken, expiry is TokenExpired. -/
def verify_access (st : Store) (tok : Nat) :
    Except OAuthError (String × String) :=
  match st.accessTokens tok with
  | none => .error .invalidToken
  | some a =>
      if a.revoked then .error .invalidToken
      else if a.expires_at ≤ st.now then .error .tokenExpired
      else .ok (a.client_id, a.user_id)

/-- Modelled from the spec: token-family lineage — a token descends from
`root` when following `rotated_from` backwards reaches `root`; the fuel
bounds the audit traversal. -/
def descendsFrom (st : Store) : Nat → Nat → Nat → Bool
  | 0, t, root => t = root
  | fuel + 1, t, root =>
      t = root ||
        match st.refreshTokens t with
        | none => false
        | some r =>
            match r.rotated_from with
            | none => false
            | some p => descendsFrom st fuel p root

/-- Modelled from the spec: the theft response — revoke every refresh
token descended from `root` via rotated_from, and the sibling access token
of each. -/
def revokeFamily (st : Store) (root : Nat) : Store :=
  { st with
      refreshTokens := fun t =>
        (st.refreshTokens t).map (fun r =>
          if descendsFrom st st.counter t root then { r with revoked := true }
          else r)
      accessTokens := fun t =>
        (st.accessTokens t).map (fun a =>
          if descendsFrom st st.counter a.sibling_refresh root then
            { a with revoked := true }
          else a) }

/-- Revoke the access token stored under one identifier, if present. -/
def revokeAccessAt (m : Nat → Option AccessToken) (k : Nat) :
    Nat → Option AccessToken :=
  fun t =>
    if t = k then (m t).map (fun a => { a with revoked := true }) else m t

/-- Modelled from the spec: refresh — atomically marks the presented token
used, invalidates its sibling access token and issues a fresh pair carrying
the lineage back-reference; presenting an already-used token is treated as
theft: the whole family is revoked and the call fails with the generic
InvalidGrant. -/
def refresh (st : Store) (tok : Nat) :
    Store × Except OAuthError (AccessToken × RefreshToken × Nat) :=
  match st.refreshTokens tok with
  | none => (st, .error .invalidGrant)
  | some r =>
      if r.used then (revokeFamily st tok, .error .invalidGrant)
      else if r.revoked then (st, .error .invalidGrant)
      else if r.expires_at ≤ st.now then (st, .error .invalidGrant)
      else
        let st1 : Store :=
          { st with
              refreshTokens := updMap st.refreshTokens tok { r with used := true }
              accessTokens := revokeAccessAt st.accessTokens r.sibling_access }
        let p := issuePair st1 r.client_id r.user_id (some tok)
        (p.1, .ok (p.2.1, p.2.2, accessTokenTtlSeconds))

/-- Modelled from the spec: revoke — idempotent; a refresh token takes its
currently-live sibling access token with it; unknown tokens are a no-op. -/
def revoke (st : Store) (tok : Nat) : Store :=
  match st.refreshTokens tok with
  | some r =>
      { st with
          refreshTokens := updMap st.refreshTokens tok { r with revoked := true }
          accessTokens := revokeAccessAt st.accessTokens r.sibling_access }
  | none =>
      match st.accessTokens tok with
      | some a =>
          { st with
              accessTokens := updMap st.accessTokens tok { a with revoked := true } }
      | none => st

/-- Modelled from the spec: the two grant types of the token endpoint. -/
inductive GrantRequest where
  | authorizationCodeGrant (code : Nat)
      (client_id client_secret redirect_uri : String)
  | refreshTokenGrant (tok : Nat) (client_id client_secret : String)

/-- Modelled from the spec: the successful token endpoint response — the
triple of access token, refresh token and expires_in. -/
structure TokenEndpointResponse where
  access_token : Nat
  refresh_token : Nat
  expires_in : Nat
deriving Repr, DecidableEq

/-- Modelled from the spec: the token endpoint — consume-then-issue for
the authorization_code grant, client verification then rotation for the
refresh_token grant; every failure is a structured grant error. -/
def tokenEndpoint (st : Store) (req : GrantRequest) :
    Store × Except OAuthError TokenEndpointResponse :=
  match req with
  | .authorizationCodeGrant code cid secret ruri =>
      match consume st code cid ruri secret with
      | (st1, .error e) => (st1, .error e)
      | (st1, .ok uid) =>
          let q := issue st1 cid uid
          (q.1, .ok { access_token := q.2.1.token
                      refresh_token := q.2.2.1.token
                      expires_in := q.2.2.2 })
  | .refreshTokenGrant tok cid secret =>
      if verifyClient st cid secret = false then (st, .error .invalidClient)
      else
        match refresh st tok with
        | (st1, .error e) => (st1, .error e)
        | (st1, .ok (a, r, e)) =>
            (st1, .ok { access_token := a.token
                        refresh_token := r.token
                        expires_in := e })

/-- Modelled from the spec: the mutating operations of the subsystem, used
to quantify over everything that can happen after a point in time. -/
inductive Op where
  | opRegister (name : String) (uris : List String)
  | opApprove (client_id redirect_uri state user_id : String)
  | opConsume (code : Nat) (client_id redirect_uri client_secret : String)
  | opIssue (client_id user_id : String)
  | opRefresh (tok : Nat)
  | opRevoke (tok : Nat)
  | opTick (dt : Nat)

/-- The state reached by one operation. -/
def applyOp (st : Store) : Op → Store
  | .opRegister n us => (register st n us).1
  | .opApprove c r s u => (approve st c r s u).1
  | .opConsume c cid ruri sec => (consume st c cid ruri sec).1
  | .opIssue c u => (issue st c u).1
  | .opRefresh t => (refresh st t).1
  | .opRevoke t => revoke st t
  | .opTick dt => { st with now := st.now + dt }

/-- The state reached by a sequence of operations. -/
def applyOps (st : Store) (ops : List Op) : Store :=
  ops.foldl applyOp st

/-- Freshness invariant: every identifier at or above the counter is
unallocated in each store. -/
def WF (st : Store) : Prop :=
  ∀ k, st.counter ≤ k →
    st.codes k = none ∧ st.accessTokens k = none ∧ st.refreshTokens k = none

theorem updMap_self {α : Type} (m : Nat → Option α) (k : Nat) (v : α) :
    updMap m k v k = some v := by
  simp [updMap]

theorem updMap_ne {α : Type} (m : Nat → Option α) (k t : Nat) (v : α)
    (h : t ≠ k) : updMap m k v t = m t := by
  simp [updMap, h]

theorem descendsFrom_self (st : Store) (fuel root : Nat) :
    descendsFrom st fuel root root = true := by
  cases fuel <;> simp [descendsFrom]

theorem descendsFrom_step (st : Store) (fuel t root : Nat) (r : RefreshToken)
    (h : st.refreshTokens t = some r) (hp : r.rotated_from = some root) :
    descendsFrom st (fuel + 1) t root = true := by
  simp [descendsFrom, h, hp, descendsFrom_self]

theorem issuePair_access_lookup (st : Store) (cid uid : String)
    (rf : Option Nat) :
    (issuePair st cid uid rf).1.accessTokens
        ((issuePair st cid uid rf).2.1).token
      = some (issuePair st cid uid rf).2.1 := by
  simp [issuePair, updMap_self]

theorem issuePair_refresh_lookup (st : Store) (cid uid : String)
    (rf : Option Nat) :
    (issuePair st cid uid rf).1.refreshTokens
        ((issuePair st cid uid rf).2.2).token
      = some (issuePair st cid uid rf).2.2 := by
  simp [issuePair, updMap_self]

theorem refresh_ok_spec (st : Store) (tok : Nat) (st1 : Store)
    (a : AccessToken) (r : RefreshToken) (e : Nat)
    (h : refresh st tok = (st1, Except.ok (a, r, e))) :
    st1.accessTokens a.token = some a ∧ st1.refreshTokens r.token = some r ∧
      a.revoked = false ∧ r.used = false ∧ r.revoked = false ∧
      e = accessTokenTtlSeconds := by
  unfold refresh at h
  cases hrt : st.refreshTokens tok with
  | none => simp [hrt] at h
  | some r0 =>
      simp only [hrt] at h
      split_ifs at h with h1 h2 h3
      · simp at h
      · simp at h
      · simp at h
      · simp only [Prod.mk.injEq, Except.ok.injEq] at h
        obtain ⟨hst, ha, hr, he⟩ := h
        subst hst; subst ha; subst hr; subst he
        refine ⟨issuePair_access_lookup .., issuePair_refresh_lookup ..,
          rfl, rfl, rfl, rfl⟩

/-! ### OAuth theorems -/

/-- C6: every successful token endpoint response, for either grant type,
is the triple access_token/refresh_token/expires_in, with both tokens
freshly live in the post-state and expires_in equal to the access-token
TTL; every failure is a structured OAuthError value. -/
theorem tokenEndpoint_response_shape (st : Store) (req : GrantRequest) :
    (∃ resp, (tokenEndpoint st req).2 = Except.ok resp ∧
        resp.expires_in = accessTokenTtlSeconds ∧
        (∃ a, (tokenEndpoint st req).1.accessTokens resp.access_token
            = some a ∧ a.revoked = false) ∧
        (∃ r, (tokenEndpoint st req).1.refreshTokens resp.refresh_token
            = some r ∧ r.used = false ∧ r.revoked = false)) ∨
      (∃ e, (tokenEndpoint st req).2 = Except.error e) := by
  cases req with
  | authorizationCodeGrant code cid secret ruri =>
      rcases hc : consume st code cid ruri secret with ⟨st1, res⟩
      cases res with
      | error e =>
          right
          exact ⟨e, by simp [tokenEndpoint, hc]⟩
      | ok uid =>
          left
          refine ⟨{ access_token := (issuePair st1 cid uid none).2.1.token
                    refresh_token := (issuePair st1 cid uid none).2.2.token
                    expires_in := accessTokenTtlSeconds }, ?_, rfl, ?_, ?_⟩
          · simp [tokenEndpoint, hc, issue]
          · exact ⟨(issuePair st1 cid uid none).2.1,
              by simpa [tokenEndpoint, hc, issue] using
                issuePair_access_lookup st1 cid uid none, rfl⟩
          · exact ⟨(issuePair st1 cid uid none).2.2,
              by simpa [tokenEndpoint, hc, issue] using
                issuePair_refresh_lookup st1 cid uid none, rfl, rfl⟩
  | refreshTokenGrant tok cid secret =>
      by_cases hv : verifyClient st cid secret = false
      · right
        exact ⟨.invalidClient, by simp [tokenEndpoint, hv]⟩
      · rcases hr : refresh st tok with ⟨st1, res⟩
        cases res with
        | error e =>
            right
            exact ⟨e, by simp [tokenEndpoint, hv, hr]⟩
        | ok triple =>
            left
            obtain ⟨a, r, e⟩ := triple
            obtain ⟨hla, hlr, hra, hru, hrr, he⟩ :=
              refresh_ok_spec st tok st1 a r e hr
            exact ⟨{ access_token := a.token, refresh_token := r.token
                     expires_in := e },
              by simp [tokenEndpoint, hv, hr], he,
              ⟨a, by simpa [tokenEndpoint, hv, hr] using hla, hra⟩,
              ⟨r, by simpa [tokenEndpoint, hv, hr] using hlr, hru, hrr⟩⟩

/-- C5: issue then verify_access on the returned access token resolves to
exactly the client and user that requested the issuance. -/
theorem issue_verify_roundtrip (st : Store) (cid uid : String) :
    verify_access (issue st cid uid).1 ((issue st cid uid).2.1).token
      = Except.ok (cid, uid) := by
  show verify_access (issuePair st cid uid none).1
      ((issuePair st cid uid none).2.1).token = Except.ok (cid, uid)
  simp only [issuePair, verify_access, updMap_self]
  rw [if_neg (by simp), if_neg (by simp [accessTokenTtlSeconds])]

/-- C3 counterexample: the default duration of the agent-token form (30 days,
one of the offered options) yields an access token whose lifetime is not
on the order of minutes to hours, so not every issued access token is
short-lived. -/
theorem agent_token_duration_counterexample :
    agentTokenDefaultDays ∈ agentTokenDurationOptions ∧
      shortLivedSeconds (agentTokenRequestSeconds agentTokenDefaultDays)
        = false := by
  decide

/-- C3 (amended): access tokens issued by the OAuth token service are
short-lived (under a day) and refresh tokens long-lived (days), but every
duration the agent-token form can request is at least one day (1 to 365
days), so agent access tokens are long-lived. -/
theorem token_ttl_split :
    shortLivedSeconds accessTokenTtlSeconds = true ∧
      shortLivedSeconds refreshTokenTtlSeconds = false ∧
      agentTokenDurationOptions.all
          (fun d => !shortLivedSeconds (agentTokenRequestSeconds d))
        = true := by
  decide

/-- Redirect-URI mismatch at consume time always yields the generic
InvalidGrant, whatever the other arguments are. -/
theorem consume_redirect_mismatch (st : Store) (code : Nat)
    (cid ruri sec : String) (ac : AuthorizationCode)
    (hc : st.codes code = some ac) (hne : ac.redirect_uri ≠ ruri) :
    (consume st code cid ruri sec).2 = Except.error OAuthError.invalidGrant := by
  simp only [consume, hc]
  split_ifs <;> simp_all

/-- C7: redirect validation is exact string match — validate_redirect
accepts exactly the members of the registered list, so any URI differing
in any character (a trailing slash, the scheme) from every registered one
is rejected; and consume fails with InvalidGrant whenever the presented
URI differs from the one the code was bound to, even if that URI passes
authorize_request. -/
theorem redirect_exact_match (st : Store) :
    (∀ cid uri, validate_redirect st cid uri = true
        ↔ ∃ c, st.clients cid = some c ∧ uri ∈ c.redirect_uris) ∧
      (∀ code ac cid ruri sec, st.codes code = some ac →
        ac.redirect_uri ≠ ruri →
        (consume st code cid ruri sec).2
          = Except.error OAuthError.invalidGrant) := by
  constructor
  · intro cid uri
    unfold validate_redirect
    cases hc : st.clients cid with
    | none => simp
    | some c => simp [hc, List.contains_eq_any_beq, List.any_eq_true]
  · intro code ac cid ruri sec hc hne
    exact consume_redirect_mismatch st code cid ruri sec ac hc hne

/-- C2: exchanging the same refresh token twice — the first refresh
succeeds with a new pair; the second fails with the generic InvalidGrant
and revokes the whole token family descended via rotated_from, including
the access token of the newly issued pair, so verify_access on that
access token also fails afterwards. -/
theorem refresh_reuse_revokes_family (st : Store) (cid uid : String) :
    ∃ a1 r1,
      (refresh (issue st cid uid).1 ((issue st cid uid).2.2.1).token).2
          = Except.ok (a1, r1, accessTokenTtlSeconds) ∧
        r1.rotated_from = some ((issue st cid uid).2.2.1).token ∧
        (refresh
            (refresh (issue st cid uid).1 ((issue st cid uid).2.2.1).token).1
            ((issue st cid uid).2.2.1).token).2
          = Except.error OAuthError.invalidGrant ∧
        verify_access
            (refresh
              (refresh (issue st cid uid).1 ((issue st cid uid).2.2.1).token).1
              ((issue st cid uid).2.2.1).token).1
            a1.token
          = Except.error OAuthError.invalidToken := by
  refine ⟨{ token := st.counter + 2, client_id := cid, user_id := uid
            expires_at := st.now + accessTokenTtlSeconds, revoked := false
            sibling_refresh := st.counter + 3 },
          { token := st.counter + 3, client_id := cid, user_id := uid
            expires_at := st.now + refreshTokenTtlSeconds
            rotated_from := some (st.counter + 1), used := false
            revoked := false, sibling_access := st.counter + 2 },
          ?_, rfl, ?_, ?_⟩
  · simp [issue, issuePair, refresh, updMap, revokeAccessAt,
      refreshTokenTtlSeconds]
  · simp [issue, issuePair, refresh, updMap, revokeAccessAt,
      refreshTokenTtlSeconds]
  · simp [issue, issuePair, refresh, updMap, revokeAccessAt,
      refreshTokenTtlSeconds, verify_access, revokeFamily, descendsFrom]

theorem consume_ok_spec (st : Store) (code : Nat) (cid ruri sec uid : String)
    (h : (consume st code cid ruri sec).2 = Except.ok uid) :
    ∃ ac, st.codes code = some ac ∧ ac.consumed = false ∧
      (consume st code cid ruri sec).1.codes code
        = some { ac with consumed := true } := by
  unfold consume at *
  cases hc : st.codes code with
  | none => simp [hc] at h
  | some ac =>
      simp only [hc] at h ⊢
      split_ifs at h with h1 h2 h3 h4 h5
      all_goals simp at h
      refine ⟨ac, rfl, by simpa using h1, ?_⟩
      rw [if_neg h1, if_neg h2, if_neg h3, if_neg h4, if_neg h5]
      exact updMap_self ..

theorem consume_consumed_fails (st : Store) (code : Nat)
    (ac : AuthorizationCode) (hc : st.codes code = some ac)
    (hcons : ac.consumed = true) (cid ruri sec : String) :
    (consume st code cid ruri sec).2 = Except.error OAuthError.invalidGrant := by
  simp [consume, hc, hcons]

theorem code_lt_counter (st : Store) (hwf : WF st) (code : Nat)
    (ac : AuthorizationCode) (hc : st.codes code = some ac) :
    code < st.counter := by
  by_contra hge
  rw [(hwf code (by omega)).1] at hc
  exact Option.noConfusion hc

theorem refreshTok_lt_counter (st : Store) (hwf : WF st) (t : Nat)
    (r : RefreshToken) (hr : st.refreshTokens t = some r) :
    t < st.counter := by
  by_contra hge
  rw [(hwf t (by omega)).2.2] at hr
  exact Option.noConfusion hr

theorem accessTok_lt_counter (st : Store) (hwf : WF st) (t : Nat)
    (a : AccessToken) (ha : st.accessTokens t = some a) :
    t < st.counter := by
  by_contra hge
  rw [(hwf t (by omega)).2.1] at ha
  exact Option.noConfusion ha

theorem register_WF (st : Store) (hwf : WF st) (n : String)
    (us : List String) : WF (register st n us).1 := by
  unfold register
  split_ifs
  · exact hwf
  · intro k hk
    have hk2 : st.counter + 1 ≤ k := hk
    exact hwf k (by omega)

theorem approve_WF (st : Store) (hwf : WF st) (c r s u : String) :
    WF (approve st c r s u).1 := by
  intro k hk
  have hk2 : st.counter + 1 ≤ k := hk
  obtain ⟨hco, hac, hre⟩ := hwf k (by omega)
  refine ⟨?_, hac, hre⟩
  show updMap st.codes st.counter _ k = none
  rw [updMap_ne _ _ _ _ (by omega)]
  exact hco

theorem consume_WF (st : Store) (hwf : WF st) (c : Nat)
    (cid ruri sec : String) : WF (consume st c cid ruri sec).1 := by
  unfold consume
  cases hc : st.codes c with
  | none => exact hwf
  | some ac =>
      simp only [hc]
      split_ifs
      · exact hwf
      · exact hwf
      · exact hwf
      · exact hwf
      · exact hwf
      · intro k hk
        have hk2 : st.counter ≤ k := hk
        have hlt : c < st.counter := code_lt_counter st hwf c ac hc
        obtain ⟨hco, hac, hre⟩ := hwf k hk2
        refine ⟨?_, hac, hre⟩
        show updMap st.codes c _ k = none
        rw [updMap_ne _ _ _ _ (by omega)]
        exact hco

theorem issuePair_WF (st : Store) (hwf : WF st) (cid uid : String)
    (rf : Option Nat) : WF (issuePair st cid uid rf).1 := by
  intro k hk
  have hk2 : st.counter + 2 ≤ k := hk
  obtain ⟨hco, hac, hre⟩ := hwf k (by omega)
  refine ⟨hco, ?_, ?_⟩
  · show updMap st.accessTokens st.counter _ k = none
    rw [updMap_ne _ _ _ _ (by omega)]
    exact hac
  · show updMap st.refreshTokens (st.counter + 1) _ k = none
    rw [updMap_ne _ _ _ _ (by omega)]
    exact hre

theorem refresh_WF (st : Store) (hwf : WF st) (t : Nat) :
    WF (refresh st t).1 := by
  unfold refresh
  cases hr : st.refreshTokens t with
  | none => exact hwf
  | some r0 =>
      simp only [hr]
      split_ifs
      · -- theft branch: revokeFamily leaves unallocated identifiers empty
        intro k hk
        obtain ⟨hco, hac, hre⟩ := hwf k hk
        refine ⟨hco, ?_, ?_⟩
        · show (st.accessTokens k).map _ = none
          rw [hac]; rfl
        · show (st.refreshTokens k).map _ = none
          rw [hre]; rfl
      · exact hwf
      · exact hwf
      · -- rotation branch: marking used and revoking the sibling keep WF,
        -- then the fresh pair lands at the counter
        have htlt : t < st.counter := refreshTok_lt_counter st hwf t r0 hr
        refine issuePair_WF _ ?_ _ _ _
        intro k hk
        have hk2 : st.counter ≤ k := hk
        obtain ⟨hco, hac, hre⟩ := hwf k hk2
        refine ⟨hco, ?_, ?_⟩
        · show revokeAccessAt st.accessTokens r0.sibling_access k = none
          unfold revokeAccessAt
          split_ifs
          · rw [hac]; rfl
          · exact hac
        · show updMap st.refreshTokens t _ k = none
          rw [updMap_ne _ _ _ _ (by omega)]
          exact hre

theorem revoke_WF (st : Store) (hwf : WF st) (t : Nat) :
    WF (revoke st t) := by
  unfold revoke
  cases hr : st.refreshTokens t with
  | some r0 =>
      simp only [hr]
      have htlt : t < st.counter := refreshTok_lt_counter st hwf t r0 hr
      intro k hk
      have hk2 : st.counter ≤ k := hk
      obtain ⟨hco, hac, hre⟩ := hwf k hk2
      refine ⟨hco, ?_, ?_⟩
      · show revokeAccessAt st.accessTokens r0.sibling_access k = none
        unfold revokeAccessAt
        split_ifs
        · rw [hac]; rfl
        · exact hac
      · show updMap st.refreshTokens t _ k = none
        rw [updMap_ne _ _ _ _ (by omega)]
        exact hre
  | none =>
      simp only [hr]
      cases ha : st.accessTokens t with
      | none => exact hwf
      | some a0 =>
          simp only [ha]
          have htlt : t < st.counter := accessTok_lt_counter st hwf t a0 ha
          intro k hk
          have hk2 : st.counter ≤ k := hk
          obtain ⟨hco, hac, hre⟩ := hwf k hk2
          refine ⟨hco, ?_, hre⟩
          show updMap st.accessTokens t _ k = none
          rw [updMap_ne _ _ _ _ (by omega)]
          exact hac

theorem applyOp_WF (st : Store) (hwf : WF st) (op : Op) :
    WF (applyOp st op) := by
  cases op with
  | opRegister n us => exact register_WF st hwf n us
  | opApprove c r s u => exact approve_WF st hwf c r s u
  | opConsume c cid ruri sec => exact consume_WF st hwf c cid ruri sec
  | opIssue c u => exact issuePair_WF st hwf c u none
  | opRefresh t => exact refresh_WF st hwf t
  | opRevoke t => exact revoke_WF st hwf t
  | opTick dt => intro k hk; exact hwf k hk

theorem register_codes (st : Store) (n : String) (us : List String) :
    (register st n us).1.codes = st.codes := by
  unfold register
  split_ifs <;> rfl

theorem refresh_codes (st : Store) (t : Nat) :
    (refresh st t).1.codes = st.codes := by
  unfold refresh
  cases hr : st.refreshTokens t with
  | none => rfl
  | some r0 =>
      simp only [hr]
      split_ifs <;> rfl

theorem revoke_codes (st : Store) (t : Nat) :
    (revoke st t).codes = st.codes := by
  unfold revoke
  cases hr : st.refreshTokens t with
  | some r0 => simp only [hr]
  | none =>
      simp only [hr]
      cases ha : st.accessTokens t <;> simp only [ha]

theorem consume_consumed_mono (st : Store) (c : Nat) (cid ruri sec : String)
    (code : Nat) (ac : AuthorizationCode) (hc : st.codes code = some ac)
    (hcons : ac.consumed = true) :
    ∃ ac', (consume st c cid ruri sec).1.codes code = some ac' ∧
      ac'.consumed = true := by
  unfold consume
  cases hc2 : st.codes c with
  | none => exact ⟨ac, hc, hcons⟩
  | some ac0 =>
      simp only [hc2]
      split_ifs
      · exact ⟨ac, hc, hcons⟩
      · exact ⟨ac, hc, hcons⟩
      · exact ⟨ac, hc, hcons⟩
      · exact ⟨ac, hc, hcons⟩
      · exact ⟨ac, hc, hcons⟩
      · by_cases hk : code = c
        · subst hk
          refine ⟨{ ac0 with consumed := true }, ?_, rfl⟩
          show updMap st.codes code _ code = some _
          exact updMap_self ..
        · refine ⟨ac, ?_, hcons⟩
          show updMap st.codes c _ code = some ac
          rw [updMap_ne _ _ _ _ hk]
          exact hc

theorem applyOp_consumed_mono (st : Store) (hwf : WF st) (op : Op)
    (code : Nat) (ac : AuthorizationCode) (hc : st.codes code = some ac)
    (hcons : ac.consumed = true) :
    ∃ ac', (applyOp st op).codes code = some ac' ∧ ac'.consumed = true := by
  have hclt : code < st.counter := code_lt_counter st hwf code ac hc
  cases op with
  | opRegister n us =>
      refine ⟨ac, ?_, hcons⟩
      show (register st n us).1.codes code = some ac
      rw [register_codes]
      exact hc
  | opApprove c r s u =>
      refine ⟨ac, ?_, hcons⟩
      show updMap st.codes st.counter _ code = some ac
      rw [updMap_ne _ _ _ _ (by omega)]
      exact hc
  | opConsume c cid ruri sec =>
      exact consume_consumed_mono st c cid ruri sec code ac hc hcons
  | opIssue c u => exact ⟨ac, hc, hcons⟩
  | opRefresh t =>
      refine ⟨ac, ?_, hcons⟩
      show (refresh st t).1.codes code = some ac
      rw [refresh_codes]
      exact hc
  | opRevoke t =>
      refine ⟨ac, ?_, hcons⟩
      show (revoke st t).codes code = some ac
      rw [revoke_codes]
      exact hc
  | opTick dt => exact ⟨ac, hc, hcons⟩

theorem applyOps_WF (st : Store) (hwf : WF st) (ops : List Op) :
    WF (applyOps st ops) := by
  induction ops generalizing st with
  | nil => exact hwf
  | cons op rest ih => exact ih (applyOp st op) (applyOp_WF st hwf op)

theorem applyOps_consumed_mono (st : Store) (hwf : WF st) (ops : List Op)
    (code : Nat) (ac : AuthorizationCode) (hc : st.codes code = some ac)
    (hcons : ac.consumed = true) :
    ∃ ac', (applyOps st ops).codes code = some ac' ∧ ac'.consumed = true := by
  induction ops generalizing st ac with
  | nil => exact ⟨ac, hc, hcons⟩
  | cons op rest ih =>
      obtain ⟨ac1, hc1, hcons1⟩ := applyOp_consumed_mono st hwf op code ac hc hcons
      exact ih (applyOp st op) (applyOp_WF st hwf op) ac1 hc1 hcons1

/-- C1: an authorization code is single-use — once a consume call for a
code succeeds, every later consume call with the same code (after any
serialised interleaving of further operations, covering either order of
racing calls) fails with the generic InvalidGrant, and the token endpoint
can never again turn that code into a token pair. -/
theorem consume_single_use (st : Store) (hwf : WF st)
    (code : Nat) (cid ruri sec uid : String)
    (hok : (consume st code cid ruri sec).2 = Except.ok uid)
    (ops : List Op) (cid2 ruri2 sec2 : String) :
    (consume (applyOps (consume st code cid ruri sec).1 ops)
        code cid2 ruri2 sec2).2 = Except.error OAuthError.invalidGrant ∧
      (tokenEndpoint (applyOps (consume st code cid ruri sec).1 ops)
          (GrantRequest.authorizationCodeGrant code cid2 sec2 ruri2)).2
        = Except.error OAuthError.invalidGrant := by
  obtain ⟨ac, hc, hnc, hc1⟩ := consume_ok_spec st code cid ruri sec uid hok
  have hwf1 : WF (consume st code cid ruri sec).1 :=
    consume_WF st hwf code cid ruri sec
  obtain ⟨ac2, hc2, hcons2⟩ :=
    applyOps_consumed_mono (consume st code cid ruri sec).1 hwf1 ops
      code { ac with consumed := true } hc1 rfl
  have hfail :=
    consume_consumed_fails (applyOps (consume st code cid ruri sec).1 ops)
      code ac2 hc2 hcons2 cid2 ruri2 sec2
  refine ⟨hfail, ?_⟩
  rcases hce : consume (applyOps (consume st code cid ruri sec).1 ops)
      code cid2 ruri2 sec2 with ⟨stx, resx⟩
  have : resx = Except.error OAuthError.invalidGrant := by
    rw [hce] at hfail
    exact hfail
  subst this
  simp [tokenEndpoint, hce]

/-- A concrete registered client used by witnesses. -/
def testClient : OAuthClient :=
  { id := "app", secret_hash := secretHash "s3cr3t", name := "Agent"
    redirect_uris := ["https://a.example/cb"], created_at := 0 }

/-- A concrete freshly approved authorization code bound to testClient. -/
def testCode : AuthorizationCode :=
  { code := 0, client_id := "app", user_id := "u1"
    redirect_uri := "https://a.example/cb", state := "xyz"
    expires_at := authCodeTtlSeconds, consumed := false }

/-- A concrete store holding testClient and the pending testCode. -/
def testStore : Store :=
  { clients := fun k => if k = "app" then some testClient else none
    codes := fun k => if k = 0 then some testCode else none
    accessTokens := fun _ => none
    refreshTokens := fun _ => none
    counter := 1
    now := 0 }

theorem testStore_WF : WF testStore := by
  intro k hk
  have hk0 : k ≠ 0 := by
    intro h
    rw [h] at hk
    exact absurd hk (by simp [testStore])
  refine ⟨?_, rfl, rfl⟩
  simp [testStore, hk0]

/-- C1 witness: in the concrete store the first consume succeeds, and an
immediate second consume with the same code fails with InvalidGrant. -/
theorem consume_single_use_witness :
    (consume (applyOps (consume testStore 0 "app" "https://a.example/cb"
          "s3cr3t").1 [])
        0 "app" "https://a.example/cb" "s3cr3t").2
      = Except.error OAuthError.invalidGrant :=
  (consume_single_use testStore testStore_WF 0 "app" "https://a.example/cb"
    "s3cr3t" "u1" (by rfl) [] "app" "https://a.example/cb" "s3cr3t").1

/-- C7 witness: the registered URI validates for the concrete client, while
consuming with a trailing-slash variant of the URI the code is bound to
fails with InvalidGrant. -/
theorem redirect_exact_match_witness :
    validate_redirect testStore "app" "https://a.example/cb" = true ∧
      (consume testStore 0 "app" "https://a.example/cb/" "s3cr3t").2
        = Except.error OAuthError.invalidGrant :=
  ⟨((redirect_exact_match testStore).1 "app" "https://a.example/cb").mpr
      ⟨testClient, by decide, by decide⟩,
    (redirect_exact_match testStore).2 0 testCode "app"
      "https://a.example/cb/" "s3cr3t" (by decide) (by decide)⟩

/-! ### Frontend theorems -/

/-- C8: every submission of the agent-token form fails — the ApiClient
class defines no method named agentToken, so AgentAuth.handleSubmit always
lands in the error branch, whatever the backend would have answered. -/
theorem agent_submit_always_fails (username password : String)
    (expiresInDays : Nat)
    (backend : String → String → Nat → AgentTokenResult) :
    AgentAuth.handleSubmit username password expiresInDays backend
        = SubmitOutcome.errorShown ∧
      apiClientMethods.contains "agentToken" = false := by
  constructor
  · rfl
  · decide

/-- C9: processing a 401 response clears the stored token (memory and
localStorage) before throwing, so the next request from that client state
carries no Authorization header. -/
theorem unauthorized_clears_token (s : ClientState) :
    (ApiClient.request s 401).2 = RequestOutcome.thrown ∧
      (ApiClient.request s 401).1.token = none ∧
      (ApiClient.request s 401).1.storage = none ∧
      hasAuthHeader (ApiClient.requestHeaders (ApiClient.request s 401).1)
        = false := by
  refine ⟨rfl, rfl, rfl, rfl⟩

/-- C10 counterexample: after setToken with the empty string, getToken returns the empty
string but the localStorage key is removed (the empty string is falsy), and
no Authorization header is sent although the token is non-null; the claim
fails at t = ''. -/
theorem setToken_empty_string_counterexample :
    (ApiClient.setToken ⟨none, none⟩ (some "")).token = some "" ∧
      (ApiClient.setToken ⟨none, none⟩ (some "")).storage ≠ some "" ∧
      hasAuthHeader
          (ApiClient.requestHeaders (ApiClient.setToken ⟨none, none⟩ (some "")))
        = false := by
  decide

/-- C10 (amended): for every non-empty string t, setToken(t) makes getToken
return t and stores t under the localStorage key; setToken(null) makes
getToken return null and removes the key; and a request carries an
Authorization header exactly when the current token is truthy (non-null and
non-empty). -/
theorem setToken_roundtrip (s s2 : ClientState) (t : String) (h : t ≠ "") :
    ApiClient.getToken (ApiClient.setToken s (some t)) = some t ∧
      (ApiClient.setToken s (some t)).storage = some t ∧
      ApiClient.getToken (ApiClient.setToken s none) = none ∧
      (ApiClient.setToken s none).storage = none ∧
      (hasAuthHeader (ApiClient.requestHeaders s2) = true
        ↔ jsTruthy s2.token = true) := by
  have ht : (!t.isEmpty) = true := by
    have := (String.isEmpty_iff t).not.mpr h
    simp only [Bool.not_eq_true] at this ⊢
    simp [this]
  refine ⟨rfl, ?_, rfl, rfl, ?_⟩
  · simp [ApiClient.setToken, jsTruthy, ht]
  · cases h2 : s2.token with
    | none => simp [ApiClient.requestHeaders, hasAuthHeader, jsTruthy, h2]
    | some u =>
        by_cases hu : u.isEmpty <;>
          simp [ApiClient.requestHeaders, hasAuthHeader, jsTruthy, h2, hu]

/-- C10 witness: the amended round-trip evaluated at the concrete token
"abc" and the empty client state. -/
theorem setToken_roundtrip_witness :
    (ApiClient.setToken ⟨none, none⟩ (some "abc")).storage = some "abc" :=
  (setToken_roundtrip ⟨none, none⟩ ⟨none, none⟩ "abc" (by decide)).2.1

/-- C4 counterexample: the agent-token call gives an external agent a
bearer token yet sends the user's password and carries no
authorization-code grant material, so the authorization-code flow is not
the only path and primary credentials are transmitted. -/
theorem agent_token_call_sends_password :
    TokenCall.sendsField (.agentTokenCall "alice" "pw" 30) "password" = true ∧
      TokenCall.sendsField (.agentTokenCall "alice" "pw" 30) "grant_type"
        = false ∧
      TokenCall.sendsField (.agentTokenCall "alice" "pw" 30) "code" = false := by
  decide

/-- C4 (amended): in the frontend as implemented, every token-obtaining
call — the login form and the agent-token form alike — transmits the user's
username and password, and none performs an authorization-code exchange
(no grant_type or code parameter is ever sent). External agents are served
by the agent-token form, which therefore obtains access from the user's
primary credentials rather than through an authorization-code flow. -/
theorem token_calls_use_primary_credentials (c : TokenCall) :
    TokenCall.sendsField c "password" = true ∧
      TokenCall.sendsField c "username" = true ∧
      TokenCall.sendsField c "grant_type" = false ∧
      TokenCall.sendsField c "code" = false := by
  cases c <;> exact ⟨rfl, rfl, rfl, rfl⟩

end Track
